import Mathlib

/-! Verification development for the 28hse property scraper: the PropertyScraper
class, its price and field extraction helpers, its crawl loop and its JSON and
CSV result sink.  Python floats are modelled as exact rationals, Python None as
`Option.none`, and an uncaught Python exception as `Except.error ()`. -/

deriving instance DecidableEq for Except

namespace StockNotes

/-- Characters matched by the regex class of digits and the dot (ASCII). -/
def isNumChar (c : Char) : Bool := c.isDigit || c == '.'

/-- Characters matched by the regex whitespace class (ASCII range). -/
def isPySpace (c : Char) : Bool :=
  c == ' ' || c == '\t' || c == '\n' || c == '\r' || c == '\x0b' || c == '\x0c'

/-- Numeric value of a digit list, most significant digit first. -/
def natOfDigits (l : List Char) : ℕ :=
  l.foldl (fun n c => 10 * n + (c.toNat - 48)) 0

/-- Exact value of a token of digits with at most one dot, as float() computes it,
modelled exactly over the rationals. -/
def floatVal (l : List Char) : ℚ :=
  let ip := l.takeWhile (fun c => !(c == '.'))
  let fp := (l.dropWhile (fun c => !(c == '.'))).drop 1
  (natOfDigits ip : ℚ) + (natOfDigits fp : ℚ) / 10 ^ fp.length

/-- Python float() restricted to the tokens the scraper passes it (matches of the
regex group of digits and dots): it succeeds exactly when the token has at least
one digit and at most one dot; otherwise float() raises ValueError, modelled as
`none`. -/
def pyFloat (s : String) : Option ℚ :=
  if s.data ≠ [] ∧ (∀ c ∈ s.data, isNumChar c) ∧ s.data.count '.' ≤ 1 ∧ ∃ c ∈ s.data, c.isDigit
  then some (floatVal s.data) else none

/-- The substitution re.sub of the pattern "HKD" with an optional following dollar
sign by the empty string: scan left to right, removing each occurrence. -/
def removeHKD : List Char → List Char
  | 'H' :: 'K' :: 'D' :: '$' :: rest => removeHKD rest
  | 'H' :: 'K' :: 'D' :: rest => removeHKD rest
  | c :: rest => c :: removeHKD rest
  | [] => []

/-- Python str.strip(): drop leading and trailing whitespace. -/
def pyStrip (l : List Char) : List Char :=
  ((l.dropWhile isPySpace).reverse.dropWhile isPySpace).reverse

/-- First match of the regex group of digits and dots: the first maximal run of
such characters, returned together with the remainder of the input after it. -/
def findNumRun : List Char → Option (List Char × List Char)
  | [] => none
  | c :: rest =>
    if isNumChar c then some ((c :: rest).takeWhile isNumChar, (c :: rest).dropWhile isNumChar)
    else findNumRun rest

/-- After group one the regex consumes optional whitespace and then the optional
magnitude group (M, Million or Millions, case-insensitive); with ordered
alternation the group matches exactly when the next character is an M in either
case. -/
def suffixPresent (rest : List Char) : Bool :=
  match rest.dropWhile isPySpace with
  | c :: _ => c == 'M' || c == 'm'
  | [] => false

/-- PropertyScraper.parse_price_to_millions.  The argument models the Python
argument (None or a string); the error value models an uncaught ValueError
raised by float() on a matched token with no digit or more than one dot. -/
def parse_price_to_millions (price_str : Option String) : Except Unit (Option ℚ) :=
  match price_str with
  | none => Except.ok none
  | some s =>
    if s = "" then Except.ok none
    else
      let cleaned := pyStrip (removeHKD s.data)
      match findNumRun cleaned with
      | none => Except.ok none
      | some (run, rest) =>
        match pyFloat (String.mk run) with
        | none => Except.error ()
        | some v =>
          if suffixPresent rest then Except.ok (some v)
          else Except.ok (some (v / 1000000))

/-- Evaluation helper: computes `floatVal` on a concrete token once the list
splitting and digit folding have been settled by `decide`. -/
theorem floatVal_eval (l ip fp : List Char) (a b k : ℕ)
    (h1 : l.takeWhile (fun c => !(c == '.')) = ip)
    (h2 : (l.dropWhile (fun c => !(c == '.'))).drop 1 = fp)
    (h3 : natOfDigits ip = a) (h4 : natOfDigits fp = b) (h5 : fp.length = k) :
    floatVal l = (a : ℚ) + (b : ℚ) / 10 ^ k := by
  rw [floatVal, h1, h2, h3, h4, h5]

example : parse_price_to_millions (some "HKD$1.5M") = Except.ok (some (floatVal ['1', '.', '5'])) := by rfl

example : floatVal ['1', '.', '5'] = 3/2 := by
  rw [floatVal_eval ['1', '.', '5'] ['1'] ['5'] 1 5 1 (by decide) (by decide) (by decide)
    (by decide) (by decide)]
  norm_num

example : parse_price_to_millions (some "3000000") =
    Except.ok (some (floatVal ['3', '0', '0', '0', '0', '0', '0'] / 1000000)) := by rfl

example : parse_price_to_millions (some ".") = Except.error () := by decide

example : parse_price_to_millions (some "1.5") =
    Except.ok (some (floatVal ['1', '.', '5'] / 1000000)) := by rfl

/-- Truthiness of an optional string in Python: None and the empty string are
falsy, every other string truthy. -/
def strTruthy : Option String → Bool
  | none => false
  | some s => !(s == "")

/-- The sell price extraction chain of PropertyScraper.parse_property_page.
Method one probes for the cell labelled Sell Price and reads its next sibling
cell; method two probes for a matching text node and reads its row through
_extract_value_from_row; method three scans the page text with the three
free-text price patterns and keeps group one of the first match.  Each
argument is the text the corresponding document probe yields (`none` when the
probe finds nothing); the chain below is the control flow of the source,
including the falsiness guards before methods two and three and the
HKD-prefixed rendering of method three. -/
def extractSellPrice (m1 m2 m3 : Option String) :
    Except Unit (Option String × Option ℚ) := do
  let st1 : Option String × Option ℚ ←
    match m1 with
    | some t => do
      let mill ← parse_price_to_millions (some t)
      pure (some t, mill)
    | none => pure (none, none)
  let st2 : Option String × Option ℚ ←
    if strTruthy st1.1 then pure st1
    else
      match m2 with
      | some t2 =>
        if t2 == "" then pure st1
        else do
          let mill ← parse_price_to_millions (some t2)
          pure (some t2, mill)
      | none => pure st1
  if strTruthy st2.1 then pure st2
  else
    match m3 with
    | some g => do
      let mill ← parse_price_to_millions (some g)
      pure (some ("HKD$" ++ g), mill)
    | none => pure st2

/-- The dedup append of the inner loop of scrape_property_listings: each link
is appended unless an equal URL was already discovered. -/
def addNew (acc : List String) (links : List String) : List String :=
  links.foldl (fun a l => if l ∈ a then a else a ++ [l]) acc

/-- The page loop of scrape_property_listings over an explicit list of page
indices, carrying the accumulated URL list. -/
def collectPages (harvest : ℕ → Option (List String)) (ps : List ℕ)
    (acc : List String) : List String :=
  ps.foldl (fun a p =>
    match harvest p with
    | none => a
    | some links => addNew a links) acc

/-- PropertyScraper.scrape_property_listings.  `harvest p` models fetching the
listing page of index p (its URL is determined by p and the base URL) and
harvesting the detail links of its markup in document order, absolutized with
urljoin; `none` models a failed fetch, whose iteration the source skips with
continue.  Logging and the inter-request sleep are effect-free here. -/
def scrape_property_listings (harvest : ℕ → Option (List String))
    (max_pages : ℕ) : List String :=
  collectPages harvest (List.range' 1 max_pages) []

/-- The Transaction dataclass of the scraper. -/
structure Transaction where
  property_full_name : String := ""
  estate_name : String := ""
  flat_info : String := ""
  location : String := ""
  sold_price : Option String := none
  sold_price_millions : Option ℚ := none
  registry_date : Option String := none
  gross_area_sqft : Option ℤ := none
  saleable_area_sqft : Option ℤ := none
  building_unit_price : Option String := none
  unit_price : Option String := none
  bedrooms : Option ℤ := none
  transaction_format : Option String := none
  url : Option String := none
deriving DecidableEq

/-- The Property dataclass of the scraper. -/
structure Property where
  url : String
  property_id : String
  location_breadcrumb : Option String := none
  estate_name : Option String := none
  full_address : Option String := none
  block_unit : Option String := none
  floor_info : Option String := none
  sell_price : Option String := none
  sell_price_millions : Option ℚ := none
  valuation : Option String := none
  valuation_millions : Option ℚ := none
  gross_area_sqft : Option ℤ := none
  gross_area_unit_price : Option ℤ := none
  saleable_area_sqft : Option ℤ := none
  saleable_area_unit_price : Option ℤ := none
  building_age_years : Option ℤ := none
  bedrooms : Option ℤ := none
  bathrooms : Option ℤ := none
  pri_school_net : Option String := none
  sec_school_net : Option String := none
  transactions : List Transaction := []
  scraped_at : String := ""
deriving DecidableEq

/-- PropertyScraper.scrape_property, denotationally.  `fetch` maps a URL to its
markup, where `none` models fetch_page returning None on a client error,
another exception or a non-200 status; `parseProp html url` models
parse_property_page, returning the assembled record and the discovered
transaction URLs in document order; `parseTrans html url` models
parse_transaction_page.  The sequential child loop with its guard on a
successful child fetch becomes an order-preserving filterMap over the first
five transaction URLs, appended to the record's transactions. -/
def scrape_property (fetch : String → Option String)
    (parseProp : String → String → Property × List String)
    (parseTrans : String → String → Transaction) (url : String) :
    Option Property :=
  match fetch url with
  | none => none
  | some html =>
    let pr := parseProp html url
    let scraped := (pr.2.take 5).filterMap fun tu =>
      (fetch tu).map fun th => parseTrans th tu
    some { pr.1 with transactions := pr.1.transactions ++ scraped }

/-- The fan-out and gather of PropertyScraper.scrape_all after listing
discovery: cap the URL list at max_properties, one task per URL, gather, keep
the non-None results.  Each task's value depends only on its URL, so the
gathered result list is the map over the capped URL list. -/
def scrape_all_from (fetch : String → Option String)
    (parseProp : String → String → Property × List String)
    (parseTrans : String → String → Transaction)
    (property_urls : List String) (max_properties : ℕ) : List Property :=
  ((property_urls.take max_properties).map
    (scrape_property fetch parseProp parseTrans)).reduceOption

/-- PropertyScraper.scrape_all: listing discovery followed by the bounded
fan-out; the admission gate itself is modelled by GateStep below. -/
def scrape_all (fetch : String → Option String)
    (parseProp : String → String → Property × List String)
    (parseTrans : String → String → Transaction)
    (harvest : ℕ → Option (List String))
    (max_pages max_properties : ℕ) : List Property :=
  scrape_all_from fetch parseProp parseTrans
    (scrape_property_listings harvest max_pages) max_properties

/-- Phase of one detail task with respect to the admission gate of scrape_all:
pending before the semaphore admits it, running while it executes
scrape_property inside the with block, done after release. -/
inductive TaskPhase
  | pending
  | running
  | done
deriving DecidableEq

/-- The gate state: the internal counter of the asyncio semaphore together
with the phases of the gathered tasks, one per admitted URL. -/
structure GateState where
  sem : ℕ
  tasks : Multiset TaskPhase
deriving DecidableEq

/-- One scheduler step of the cooperative event loop, as it affects the gate:
acquire admits a pending task only when the counter is positive and decrements
the counter; release completes a running task and increments the counter.
Every interleaving the event loop can produce is a sequence of such steps. -/
inductive GateStep : GateState → GateState → Prop
  | acquire (sem : ℕ) (rest : Multiset TaskPhase) :
      GateStep ⟨sem + 1, TaskPhase.pending ::ₘ rest⟩ ⟨sem, TaskPhase.running ::ₘ rest⟩
  | release (sem : ℕ) (rest : Multiset TaskPhase) :
      GateStep ⟨sem, TaskPhase.running ::ₘ rest⟩ ⟨sem + 1, TaskPhase.done ::ₘ rest⟩

/-- The initial gate state of a run with capacity K and n gathered tasks. -/
def gateInit (K n : ℕ) : GateState :=
  ⟨K, Multiset.replicate n TaskPhase.pending⟩

/-- One row of the parent CSV: asdict of the record with the transactions key
popped. -/
structure PropertyRow where
  url : String
  property_id : String
  location_breadcrumb : Option String
  estate_name : Option String
  full_address : Option String
  block_unit : Option String
  floor_info : Option String
  sell_price : Option String
  sell_price_millions : Option ℚ
  valuation : Option String
  valuation_millions : Option ℚ
  gross_area_sqft : Option ℤ
  gross_area_unit_price : Option ℤ
  saleable_area_sqft : Option ℤ
  saleable_area_unit_price : Option ℤ
  building_age_years : Option ℤ
  bedrooms : Option ℤ
  bathrooms : Option ℤ
  pri_school_net : Option String
  sec_school_net : Option String
  scraped_at : String
deriving DecidableEq

/-- The parent row save_to_csv builds from a record. -/
def toRow (p : Property) : PropertyRow :=
  { url := p.url
    property_id := p.property_id
    location_breadcrumb := p.location_breadcrumb
    estate_name := p.estate_name
    full_address := p.full_address
    block_unit := p.block_unit
    floor_info := p.floor_info
    sell_price := p.sell_price
    sell_price_millions := p.sell_price_millions
    valuation := p.valuation
    valuation_millions := p.valuation_millions
    gross_area_sqft := p.gross_area_sqft
    gross_area_unit_price := p.gross_area_unit_price
    saleable_area_sqft := p.saleable_area_sqft
    saleable_area_unit_price := p.saleable_area_unit_price
    building_age_years := p.building_age_years
    bedrooms := p.bedrooms
    bathrooms := p.bathrooms
    pri_school_net := p.pri_school_net
    sec_school_net := p.sec_school_net
    scraped_at := p.scraped_at }

/-- One row of the child CSV: asdict of the transaction plus the two foreign
key columns referencing the owning record. -/
structure TransactionRow where
  property_full_name : String
  estate_name : String
  flat_info : String
  location : String
  sold_price : Option String
  sold_price_millions : Option ℚ
  registry_date : Option String
  gross_area_sqft : Option ℤ
  saleable_area_sqft : Option ℤ
  building_unit_price : Option String
  unit_price : Option String
  bedrooms : Option ℤ
  transaction_format : Option String
  url : Option String
  property_id : String
  property_url : String
deriving DecidableEq

/-- The child row save_to_csv builds from a transaction of the record with
identifier pid and URL purl. -/
def toTransRow (pid purl : String) (t : Transaction) : TransactionRow :=
  { property_full_name := t.property_full_name
    estate_name := t.estate_name
    flat_info := t.flat_info
    location := t.location
    sold_price := t.sold_price
    sold_price_millions := t.sold_price_millions
    registry_date := t.registry_date
    gross_area_sqft := t.gross_area_sqft
    saleable_area_sqft := t.saleable_area_sqft
    building_unit_price := t.building_unit_price
    unit_price := t.unit_price
    bedrooms := t.bedrooms
    transaction_format := t.transaction_format
    url := t.url
    property_id := pid
    property_url := purl }

/-- The parent rows save_to_csv builds, in iteration order. -/
def parentRows (properties : List Property) : List PropertyRow :=
  properties.map toRow

/-- The child rows save_to_csv builds, in iteration order. -/
def childRows (properties : List Property) : List TransactionRow :=
  properties.flatMap fun p => p.transactions.map (toTransRow p.property_id p.url)

/-- PropertyScraper.save_to_csv.  Each component is the written table, or
`none` when the guard on a non-empty row list suppresses that write. -/
def save_to_csv (properties : List Property) :
    Option (List PropertyRow) × Option (List TransactionRow) :=
  let properties_data := parentRows properties
  let transactions_data := childRows properties
  (if properties_data = [] then none else some properties_data,
   if transactions_data = [] then none else some transactions_data)

/-- The JSON document save_to_json writes. -/
structure JsonDoc where
  scraped_at : String
  total_properties : ℕ
  properties : List Property
deriving DecidableEq

/-- PropertyScraper.save_to_json; `now` models the run timestamp taken at
write time. -/
def save_to_json (now : String) (properties : List Property) : JsonDoc :=
  ⟨now, properties.length, properties⟩

/-- Whether a parent row is the one a child row's foreign key columns
reference. -/
def fkMatches (r : PropertyRow) (c : TransactionRow) : Bool :=
  r.property_id == c.property_id && r.url == c.property_url

/-! Helper lemmas about the character level parsing functions. -/

theorem removeHKD_cons_ne (c : Char) (rest : List Char) (hc : c ≠ 'H') :
    removeHKD (c :: rest) = c :: removeHKD rest := by
  rw [removeHKD.eq_def]
  split <;> simp_all

theorem removeHKD_eq_self (l : List Char) (h : ∀ c ∈ l, c ≠ 'H') :
    removeHKD l = l := by
  induction l with
  | nil => rfl
  | cons c rest ih =>
    rw [removeHKD_cons_ne c rest (h c (List.mem_cons_self c rest)),
      ih (fun x hx => h x (List.mem_cons_of_mem _ hx))]

theorem dropWhile_eq_self_of (p : Char → Bool) (l : List Char)
    (h : ∀ c ∈ l, p c = false) : l.dropWhile p = l := by
  cases l with
  | nil => rfl
  | cons c rest => simp [List.dropWhile_cons, h c (List.mem_cons_self c rest)]

theorem pyStrip_eq_self (l : List Char) (h : ∀ c ∈ l, isPySpace c = false) :
    pyStrip l = l := by
  unfold pyStrip
  rw [dropWhile_eq_self_of _ _ h,
    dropWhile_eq_self_of _ _ (fun c hc => h c (List.mem_reverse.mp hc)),
    List.reverse_reverse]

theorem takeWhile_append_all (p : Char → Bool) (l1 l2 : List Char)
    (h : ∀ c ∈ l1, p c = true) : (l1 ++ l2).takeWhile p = l1 ++ l2.takeWhile p := by
  induction l1 with
  | nil => simp
  | cons c rest ih =>
    simp [List.takeWhile_cons, h c (List.mem_cons_self c rest),
      ih (fun x hx => h x (List.mem_cons_of_mem _ hx))]

theorem dropWhile_append_all (p : Char → Bool) (l1 l2 : List Char)
    (h : ∀ c ∈ l1, p c = true) : (l1 ++ l2).dropWhile p = l2.dropWhile p := by
  induction l1 with
  | nil => simp
  | cons c rest ih =>
    simp [List.dropWhile_cons, h c (List.mem_cons_self c rest),
      ih (fun x hx => h x (List.mem_cons_of_mem _ hx))]

theorem findNumRun_all_num (l rest : List Char) (hne : l ≠ [])
    (hall : ∀ c ∈ l, isNumChar c = true)
    (h1 : rest.takeWhile isNumChar = []) (h2 : rest.dropWhile isNumChar = rest) :
    findNumRun (l ++ rest) = some (l, rest) := by
  cases l with
  | nil => exact absurd rfl hne
  | cons c cs =>
    have hc : isNumChar c = true := hall c (List.mem_cons_self c cs)
    rw [List.cons_append, findNumRun.eq_def]
    simp only [hc, if_true, ← List.cons_append]
    rw [takeWhile_append_all _ _ _ hall, dropWhile_append_all _ _ _ hall, h1, h2,
      List.append_nil]

theorem pyFloat_some (s : String) (v : ℚ) (h : pyFloat s = some v) :
    s.data ≠ [] ∧ (∀ c ∈ s.data, isNumChar c = true) ∧ v = floatVal s.data := by
  unfold pyFloat at h
  split at h
  · rename_i hcond
    exact ⟨hcond.1, fun c hc => hcond.2.1 c hc, (Option.some.inj h).symm⟩
  · exact absurd h (by simp)

theorem num_not_space (c : Char) (h : isNumChar c = true) : isPySpace c = false := by
  cases hps : isPySpace c with
  | false => rfl
  | true =>
    exfalso
    simp only [isPySpace, Bool.or_eq_true, beq_iff_eq] at hps
    rcases hps with ((((h1 | h1) | h1) | h1) | h1) | h1 <;> subst h1 <;>
      exact absurd h (by decide)

theorem num_not_H (c : Char) (h : isNumChar c = true) : c ≠ 'H' := by
  intro heq
  subst heq
  exact absurd h (by decide)

/-- Workhorse for the amended idempotence claim: on any decimal token t
float() accepts with value v, the projection returns v when the token carries
the magnitude suffix and v divided by one million when it does not. -/
theorem parse_price_of_pyFloat (t : String) (v : ℚ) (h : pyFloat t = some v) :
    parse_price_to_millions (some (t ++ "M")) = Except.ok (some v) ∧
    parse_price_to_millions (some t) = Except.ok (some (v / 1000000)) := by
  obtain ⟨hne, hall, hval⟩ := pyFloat_some t v h
  have hnotH : ∀ c ∈ t.data, c ≠ 'H' := fun c hc => num_not_H c (hall c hc)
  have hnospace : ∀ c ∈ t.data, isPySpace c = false :=
    fun c hc => num_not_space c (hall c hc)
  have hmk : pyFloat (String.mk t.data) = some v := h
  constructor
  · have e1 : (t ++ "M").data = t.data ++ ['M'] := by
      simp [String.data_append]
    have hne2 : ¬(t ++ "M" = "") := by
      intro he
      have := congrArg String.data he
      rw [e1] at this
      simp at this
    have e2 : removeHKD (t.data ++ ['M']) = t.data ++ ['M'] := by
      refine removeHKD_eq_self _ ?_
      intro c hc
      rcases List.mem_append.mp hc with hc1 | hc1
      · exact hnotH c hc1
      · simp at hc1
        subst hc1
        decide
    have e3 : pyStrip (t.data ++ ['M']) = t.data ++ ['M'] := by
      refine pyStrip_eq_self _ ?_
      intro c hc
      rcases List.mem_append.mp hc with hc1 | hc1
      · exact hnospace c hc1
      · simp at hc1
        subst hc1
        decide
    have e4 : findNumRun (t.data ++ ['M']) = some (t.data, ['M']) :=
      findNumRun_all_num t.data ['M'] hne hall (by decide) (by decide)
    simp only [parse_price_to_millions]
    rw [if_neg hne2]
    simp only [e1, e2, e3, e4, hmk]
    rw [show suffixPresent ['M'] = true from rfl]
    simp
  · have hne3 : ¬(t = "") := by
      intro he
      exact hne (congrArg String.data he)
    have e2 : removeHKD t.data = t.data := removeHKD_eq_self _ hnotH
    have e3 : pyStrip t.data = t.data := pyStrip_eq_self _ hnospace
    have e4 : findNumRun t.data = some (t.data, []) := by
      have := findNumRun_all_num t.data [] hne hall rfl rfl
      rwa [List.append_nil] at this
    simp only [parse_price_to_millions]
    rw [if_neg hne3]
    simp only [e2, e3, e4, hmk]
    rw [show suffixPresent [] = false from rfl]
    simp

/-- C1: parse_price_to_millions maps "HKD$1.5M" to 1.5, "3000000" to 3.0 and
None to None; the projection is None whenever the price string is None (third
conjunct), and on a present string it is a pure function of that string — in
this embedding it is literally a function of the string and nothing else. -/
theorem price_projection_reference_examples :
    parse_price_to_millions (some "HKD$1.5M") = Except.ok (some (3 / 2)) ∧
    parse_price_to_millions (some "3000000") = Except.ok (some 3) ∧
    parse_price_to_millions none = Except.ok none := by
  refine ⟨?_, ?_, rfl⟩
  · have h : parse_price_to_millions (some "HKD$1.5M") =
        Except.ok (some (floatVal ['1', '.', '5'])) := by rfl
    rw [h, floatVal_eval ['1', '.', '5'] ['1'] ['5'] 1 5 1 (by decide) (by decide)
      (by decide) (by decide) (by decide)]
    norm_num
  · have h : parse_price_to_millions (some "3000000") =
        Except.ok (some (floatVal ['3', '0', '0', '0', '0', '0', '0'] / 1000000)) := by rfl
    rw [h, floatVal_eval ['3', '0', '0', '0', '0', '0', '0']
      ['3', '0', '0', '0', '0', '0', '0'] [] 3000000 0 0 (by decide) (by decide)
      (by decide) (by decide) (by decide)]
    norm_num

/-- C2 counterexample: the projection maps "HKD$1.5M" to 1.5, whose string
rendering is "1.5", but re-applying the projection to "1.5" yields 1.5
divided by one million, not 1.5 — the projection is not idempotent on the
bare rendering of its own already-normalized result. -/
theorem price_projection_not_idempotent :
    parse_price_to_millions (some "HKD$1.5M") = Except.ok (some (3 / 2)) ∧
    parse_price_to_millions (some "1.5") = Except.ok (some (3 / 2000000)) ∧
    (3 / 2000000 : ℚ) ≠ (3 / 2 : ℚ) := by
  refine ⟨?_, ?_, by norm_num⟩
  · have h : parse_price_to_millions (some "HKD$1.5M") =
        Except.ok (some (floatVal ['1', '.', '5'])) := by rfl
    rw [h, floatVal_eval ['1', '.', '5'] ['1'] ['5'] 1 5 1 (by decide) (by decide)
      (by decide) (by decide) (by decide)]
    norm_num
  · have h : parse_price_to_millions (some "1.5") =
        Except.ok (some (floatVal ['1', '.', '5'] / 1000000)) := by rfl
    rw [h, floatVal_eval ['1', '.', '5'] ['1'] ['5'] 1 5 1 (by decide) (by decide)
      (by decide) (by decide) (by decide)]
    norm_num

/-- C2 amended: for every price string on which the projection returns v,
re-applying the projection to a decimal rendering of v that carries the
magnitude suffix M returns v again, while re-applying it to the bare decimal
rendering returns v divided by one million instead. -/
theorem price_projection_idempotent_on_suffixed (s : String) (v : ℚ) (t : String)
    (_hs : parse_price_to_millions (some s) = Except.ok (some v))
    (ht : pyFloat t = some v) :
    parse_price_to_millions (some (t ++ "M")) = Except.ok (some v) ∧
    parse_price_to_millions (some t) = Except.ok (some (v / 1000000)) :=
  parse_price_of_pyFloat t v ht

/-- Witness for the amended C2 claim at the projection result 1.5 of the price
string "HKD$1.5M", whose decimal rendering is "1.5". -/
theorem price_projection_idempotent_witness :
    parse_price_to_millions (some ("1.5" ++ "M")) = Except.ok (some (3 / 2)) ∧
    parse_price_to_millions (some "1.5") = Except.ok (some ((3 / 2 : ℚ) / 1000000)) :=
  price_projection_idempotent_on_suffixed "HKD$1.5M" (3 / 2) "1.5"
    (by
      have h : parse_price_to_millions (some "HKD$1.5M") =
          Except.ok (some (floatVal ['1', '.', '5'])) := by rfl
      rw [h, floatVal_eval ['1', '.', '5'] ['1'] ['5'] 1 5 1 (by decide) (by decide)
        (by decide) (by decide) (by decide)]
      norm_num)
    (by
      have h : pyFloat "1.5" = some (floatVal ['1', '.', '5']) := by rfl
      rw [h, floatVal_eval ['1', '.', '5'] ['1'] ['5'] 1 5 1 (by decide) (by decide)
        (by decide) (by decide) (by decide)]
      norm_num)

/-- C4: the claim that no extraction or numeric post-processing step ever
raises fails on the code.  On the input string consisting of a single dot the
regex group of digits and dots matches the lone dot and float raises an
uncaught ValueError inside parse_price_to_millions; the theorem evaluates the
embedded function at the failing input, yielding the error outcome that models
the raised exception. -/
theorem price_projection_raises_on_dot :
    parse_price_to_millions (some ".") = Except.error () := by decide

theorem except_error_bind {α β : Type} (e : Unit) (f : α → Except Unit β) :
    (Except.error e >>= f) = Except.error e := rfl

theorem except_ok_bind {α β : Type} (a : α) (f : α → Except Unit β) :
    (Except.ok a >>= f) = f a := rfl

theorem except_pure {α : Type} (a : α) : (pure a : Except Unit α) = Except.ok a := rfl

/-- C3: strict precedence of the strategy chain.  When the first strategy (the
labelled cell and its sibling) yields a non-empty text t, the chain's outcome
is entirely determined by t — the later strategies are not consulted, so any
outcomes of the text-anchor scan and the free-text regex give the same result
— and whenever the chain completes normally its extracted sell price is
exactly t. -/
theorem sell_price_first_strategy_precedence (t : String) (ht : t ≠ "")
    (m2 m3 m2' m3' : Option String) :
    extractSellPrice (some t) m2 m3 = extractSellPrice (some t) m2' m3' ∧
    ∀ r, extractSellPrice (some t) m2 m3 = Except.ok r → r.1 = some t := by
  have htb : (t == "") = false := by
    simp [ht]
  cases hp : parse_price_to_millions (some t) with
  | error e =>
    constructor
    · simp [extractSellPrice, hp, except_error_bind]
    · intro r hr
      simp [extractSellPrice, hp, except_error_bind] at hr
  | ok mill =>
    constructor
    · simp [extractSellPrice, hp, except_ok_bind, except_pure, strTruthy, htb]
    · intro r hr
      simp [extractSellPrice, hp, except_ok_bind, except_pure, strTruthy, htb] at hr
      rw [← hr]

/-- Witness for C3 at the concrete document outcomes where the first strategy
yields the text "HKD$1.5M" and the later strategies would yield different
values. -/
theorem sell_price_first_strategy_precedence_witness :
    (extractSellPrice (some "HKD$1.5M") (some "x") none =
      extractSellPrice (some "HKD$1.5M") none (some "9M")) ∧
    ∀ r, extractSellPrice (some "HKD$1.5M") (some "x") none = Except.ok r →
      r.1 = some "HKD$1.5M" :=
  sell_price_first_strategy_precedence "HKD$1.5M" (by decide) (some "x") none
    none (some "9M")

theorem mem_addNew (u : String) (ls : List String) : ∀ acc : List String,
    (u ∈ addNew acc ls ↔ u ∈ acc ∨ u ∈ ls) := by
  induction ls with
  | nil =>
    intro acc
    simp [addNew]
  | cons l rest ih =>
    intro acc
    show u ∈ addNew (if l ∈ acc then acc else acc ++ [l]) rest ↔ _
    rw [ih]
    by_cases hl : l ∈ acc
    · simp only [if_pos hl, List.mem_cons]
      constructor
      · rintro (h | h)
        · exact Or.inl h
        · exact Or.inr (Or.inr h)
      · rintro (h | h | h)
        · exact Or.inl h
        · exact Or.inl (h ▸ hl)
        · exact Or.inr h
    · simp only [if_neg hl, List.mem_append, List.mem_singleton, List.mem_cons]
      tauto

theorem nodup_addNew (ls : List String) : ∀ acc : List String,
    acc.Nodup → (addNew acc ls).Nodup := by
  induction ls with
  | nil =>
    intro acc h
    exact h
  | cons l rest ih =>
    intro acc h
    show (addNew (if l ∈ acc then acc else acc ++ [l]) rest).Nodup
    refine ih _ ?_
    by_cases hl : l ∈ acc
    · simpa [hl] using h
    · simp [hl, List.nodup_append, h]

theorem mem_collectPages (harvest : ℕ → Option (List String)) (u : String)
    (ps : List ℕ) : ∀ acc : List String,
    (u ∈ collectPages harvest ps acc ↔
      u ∈ acc ∨ ∃ p ∈ ps, ∃ ls, harvest p = some ls ∧ u ∈ ls) := by
  induction ps with
  | nil =>
    intro acc
    simp [collectPages]
  | cons p rest ih =>
    intro acc
    show u ∈ collectPages harvest rest
      (match harvest p with | none => acc | some links => addNew acc links) ↔ _
    rw [ih]
    cases hp : harvest p with
    | none =>
      constructor
      · rintro (h | ⟨q, hq, ls, hls, hu⟩)
        · exact Or.inl h
        · exact Or.inr ⟨q, List.mem_cons_of_mem _ hq, ls, hls, hu⟩
      · rintro (h | ⟨q, hq, ls, hls, hu⟩)
        · exact Or.inl h
        · rcases List.mem_cons.mp hq with rfl | hq2
          · rw [hp] at hls
            exact absurd hls (by simp)
          · exact Or.inr ⟨q, hq2, ls, hls, hu⟩
    | some links =>
      rw [mem_addNew]
      constructor
      · rintro ((h | h) | ⟨q, hq, ls, hls, hu⟩)
        · exact Or.inl h
        · exact Or.inr ⟨p, List.mem_cons_self p rest, links, hp, h⟩
        · exact Or.inr ⟨q, List.mem_cons_of_mem _ hq, ls, hls, hu⟩
      · rintro (h | ⟨q, hq, ls, hls, hu⟩)
        · exact Or.inl (Or.inl h)
        · rcases List.mem_cons.mp hq with rfl | hq2
          · rw [hp] at hls
            exact Or.inl (Or.inr ((Option.some.inj hls) ▸ hu))
          · exact Or.inr ⟨q, hq2, ls, hls, hu⟩

theorem nodup_collectPages (harvest : ℕ → Option (List String)) (ps : List ℕ) :
    ∀ acc : List String, acc.Nodup → (collectPages harvest ps acc).Nodup := by
  induction ps with
  | nil =>
    intro acc h
    exact h
  | cons p rest ih =>
    intro acc h
    show (collectPages harvest rest
      (match harvest p with | none => acc | some links => addNew acc links)).Nodup
    cases hp : harvest p with
    | none => exact ih _ h
    | some links => exact ih _ (nodup_addNew _ _ h)

/-- Listing page outcomes where page one yields zero new links and page two
yields one link: used to exhibit the absence of an early stop. -/
def harvestTwoPages : ℕ → Option (List String) := fun p =>
  if p = 2 then some ["u"] else some []

/-- C5 counterexample: in a two page listing run where page one yields zero
new links, the loop still fetches page two and returns its link, so the
claimed early stop after a page yielding zero new links does not exist in the
code (an early stop would return the empty list). -/
theorem listing_no_early_stop_cex :
    scrape_property_listings harvestTwoPages 2 = ["u"] ∧
    ["u"] ≠ ([] : List String) := by
  constructor
  · rfl
  · simp

/-- C5 amended: listing discovery processes the pages sequentially in index
order one to N, deduplicating harvested links by exact match — the result has
no duplicates and holds exactly the links harvested from the successfully
fetched pages.  It does not stop early: every configured page index is
processed, so a page yielding zero new links never prevents later pages from
contributing (second conjunct quantifies over all pages of the range). -/
theorem listing_discovery_dedup_all_pages (harvest : ℕ → Option (List String))
    (N : ℕ) :
    (scrape_property_listings harvest N).Nodup ∧
    ∀ u, u ∈ scrape_property_listings harvest N ↔
      ∃ p ∈ List.range' 1 N, ∃ ls, harvest p = some ls ∧ u ∈ ls := by
  constructor
  · exact nodup_collectPages harvest _ [] List.nodup_nil
  · intro u
    rw [scrape_property_listings, mem_collectPages]
    simp

theorem length_filterMap_of_isSome {α β : Type} (f : α → Option β) (l : List α)
    (h : ∀ x ∈ l, (f x).isSome) : (l.filterMap f).length = l.length := by
  induction l with
  | nil => rfl
  | cons a rest ih =>
    rw [List.filterMap_cons]
    cases hf : f a with
    | none =>
      have := h a (List.mem_cons_self a rest)
      rw [hf] at this
      exact absurd this (by simp)
    | some b =>
      simp only [List.length_cons, ih (fun x hx => h x (List.mem_cons_of_mem _ hx))]

/-- C6: failure isolation.  A detail task whose page fetch fails contributes
no record (first conjunct), and removing such a failed task from the gathered
URL list leaves the output of the sibling tasks unchanged (second conjunct).
Within a successful detail task, when exactly one attempted child fetch fails
the parent record is still produced and owns exactly one fewer child than the
child URLs attempted (third conjunct). -/
theorem detail_failure_isolation (fetch : String → Option String)
    (pp : String → String → Property × List String)
    (pt : String → String → Transaction) :
    (∀ u, fetch u = none → scrape_property fetch pp pt u = none) ∧
    (∀ (us1 us2 : List String) (u : String) (K : ℕ), fetch u = none →
      us1.length + us2.length + 1 ≤ K →
      scrape_all_from fetch pp pt (us1 ++ u :: us2) K =
        scrape_all_from fetch pp pt (us1 ++ us2) K) ∧
    (∀ (url html t : String) (ts1 ts2 : List String),
      fetch url = some html →
      (pp html url).1.transactions = [] →
      (pp html url).2.take 5 = ts1 ++ t :: ts2 →
      fetch t = none →
      (∀ x ∈ ts1, (fetch x).isSome) → (∀ x ∈ ts2, (fetch x).isSome) →
      ∃ p, scrape_property fetch pp pt url = some p ∧
        p.transactions.length + 1 = (ts1 ++ t :: ts2).length) := by
  have hnone : ∀ u, fetch u = none → scrape_property fetch pp pt u = none := by
    intro u hu
    simp [scrape_property, hu]
  refine ⟨hnone, ?_, ?_⟩
  · intro us1 us2 u K hu hK
    have h1 : (us1 ++ u :: us2).take K = us1 ++ u :: us2 :=
      List.take_of_length_le (by simp; omega)
    have h2 : (us1 ++ us2).take K = us1 ++ us2 :=
      List.take_of_length_le (by simp; omega)
    rw [scrape_all_from, scrape_all_from, h1, h2, List.map_append, List.map_append,
      List.map_cons, List.reduceOption_append, List.reduceOption_append,
      hnone u hu, List.reduceOption_cons_of_none]
  · intro url html t ts1 ts2 hf hq htake ht h1 h2
    have hsp : scrape_property fetch pp pt url =
        some { (pp html url).1 with transactions :=
          (pp html url).1.transactions ++
            (((pp html url).2.take 5).filterMap fun tu =>
              (fetch tu).map fun th => pt th tu) } := by
      simp [scrape_property, hf]
    refine ⟨_, hsp, ?_⟩
    have h1' : ∀ x ∈ ts1, (Option.map (fun th => pt th x) (fetch x)).isSome := by
      intro x hx
      cases hfx : fetch x with
      | none =>
        have := h1 x hx
        rw [hfx] at this
        exact absurd this (by simp)
      | some y => simp
    have h2' : ∀ x ∈ ts2, (Option.map (fun th => pt th x) (fetch x)).isSome := by
      intro x hx
      cases hfx : fetch x with
      | none =>
        have := h2 x hx
        rw [hfx] at this
        exact absurd this (by simp)
      | some y => simp
    simp only [hq, List.nil_append, htake, List.filterMap_append, List.filterMap_cons, ht,
      Option.map_none']
    simp only [List.length_append, List.length_cons]
    rw [length_filterMap_of_isSome _ ts1 h1', length_filterMap_of_isSome _ ts2 h2']
    omega

/-- Concrete fetch outcomes for the C6 witness: the URL "bad" fails, all other
URLs yield markup. -/
def fetchW : String → Option String := fun u => if u = "bad" then none else some "h"

/-- Concrete detail page parse outcomes for the C6 and C9 witnesses: every
detail page discovers the child URLs "c1", "bad" and "c2". -/
def ppW : String → String → Property × List String :=
  fun _ u => ({ url := u, property_id := "1" }, ["c1", "bad", "c2"])

/-- Concrete transaction parse outcomes for the C6 and C9 witnesses. -/
def ptW : String → String → Transaction := fun _ u => { url := some u }

/-- Witness for C6 at concrete inputs: the failed URL "bad" contributes
nothing and its removal leaves the sibling results unchanged, and a detail
task attempting three children of which exactly the middle fetch fails keeps
the parent with two children. -/
theorem detail_failure_isolation_witness :
    scrape_property fetchW ppW ptW "bad" = none ∧
    scrape_all_from fetchW ppW ptW (["good1"] ++ "bad" :: ["good2"]) 3 =
      scrape_all_from fetchW ppW ptW (["good1"] ++ ["good2"]) 3 ∧
    ∃ p, scrape_property fetchW ppW ptW "good1" = some p ∧
      p.transactions.length + 1 = (["c1"] ++ "bad" :: ["c2"]).length := by
  obtain ⟨h1, h2, h3⟩ := detail_failure_isolation fetchW ppW ptW
  refine ⟨h1 "bad" rfl, h2 ["good1"] ["good2"] "bad" 3 rfl (by decide), ?_⟩
  exact h3 "good1" "h" "bad" ["c1"] ["c2"] rfl rfl rfl rfl (by decide) (by decide)

theorem filterMap_sublist_map {α β : Type} (f : α → Option β) (g : α → β)
    (l : List α) (h : ∀ a, f a = none ∨ f a = some (g a)) :
    (l.filterMap f).Sublist (l.map g) := by
  induction l with
  | nil => simp
  | cons a rest ih =>
    rw [List.filterMap_cons, List.map_cons]
    rcases h a with ha | ha
    · rw [ha]
      exact ih.cons _
    · rw [ha]
      exact ih.cons₂ _

/-- C9: every record a completed detail task produces owns at most five
children — the configured cap on children per parent — and the children
appear in the document order of the discovered transaction links.  The last
hypothesis states that the child assembler stamps each child with its source
URL, which parse_transaction_page does by constructing the Transaction with
url bound to its URL argument; under it the children's URL sequence is a
sublist (order-preserving selection) of the discovered link sequence. -/
theorem children_cap_and_order (fetch : String → Option String)
    (pp : String → String → Property × List String)
    (pt : String → String → Transaction) (url html : String) (p : Property)
    (hf : fetch url = some html)
    (hq : (pp html url).1.transactions = [])
    (hurl : ∀ h u, (pt h u).url = some u)
    (hsp : scrape_property fetch pp pt url = some p) :
    p.transactions.length ≤ 5 ∧
    (p.transactions.map Transaction.url).Sublist ((pp html url).2.map some) := by
  have hval : scrape_property fetch pp pt url =
      some { (pp html url).1 with transactions :=
        (pp html url).1.transactions ++
          (((pp html url).2.take 5).filterMap fun tu =>
            (fetch tu).map fun th => pt th tu) } := by
    simp [scrape_property, hf]
  rw [hval] at hsp
  have hp := Option.some.inj hsp
  have htrans : p.transactions =
      ((pp html url).2.take 5).filterMap fun tu =>
        (fetch tu).map fun th => pt th tu := by
    rw [← hp]
    simp [hq]
  constructor
  · rw [htrans]
    refine le_trans (List.length_filterMap_le _ _) ?_
    rw [List.length_take]
    exact min_le_left _ _
  · rw [htrans, List.map_filterMap]
    have hfg : ∀ a, ((fetch a).map fun th => pt th a).map Transaction.url = none ∨
        ((fetch a).map fun th => pt th a).map Transaction.url = some (some a) := by
      intro a
      cases hfa : fetch a with
      | none => exact Or.inl rfl
      | some y =>
        right
        simp [hurl]
    exact (filterMap_sublist_map _ some _ hfg).trans
      ((List.take_sublist 5 _).map some)

/-- The record the task for "good1" produces under the witness outcomes. -/
def pW : Property :=
  { url := "good1", property_id := "1",
    transactions := [{ url := some "c1" }, { url := some "c2" }] }

/-- Witness for C9 at the concrete run of the C6 fetch and parse outcomes: the
task for "good1" attempts the children "c1", "bad" and "c2", loses "bad", and
keeps the surviving children in document order. -/
theorem children_cap_and_order_witness :
    pW.transactions.length ≤ 5 ∧
    (pW.transactions.map Transaction.url).Sublist ((ppW "h" "good1").2.map some) :=
  children_cap_and_order fetchW ppW ptW "good1" "h" pW rfl rfl (fun _ _ => rfl)
    (by decide)

theorem gateStep_invariant {K : ℕ} {s s2 : GateState}
    (hinv : s.sem + s.tasks.count TaskPhase.running = K) (h : GateStep s s2) :
    s2.sem + s2.tasks.count TaskPhase.running = K := by
  cases h with
  | acquire sem rest =>
    simp [Multiset.count_cons] at hinv ⊢
    omega
  | release sem rest =>
    simp [Multiset.count_cons] at hinv ⊢
    omega

/-- C7: the admission gate bounds the tasks simultaneously inside their fetch
and extract section.  In every gate state reachable from the initial state of
a run with capacity K and any number n of gathered tasks — however many URLs
discovery produced — at most K tasks are in the running phase, for any K at
least one. -/
theorem admission_gate_bounds_running (K n : ℕ) (_hK : 1 ≤ K) (s : GateState)
    (h : Relation.ReflTransGen GateStep (gateInit K n) s) :
    s.tasks.count TaskPhase.running ≤ K := by
  have hinv : s.sem + s.tasks.count TaskPhase.running = K := by
    induction h with
    | refl => simp [gateInit, Multiset.count_replicate]
    | tail h1 h2 ih => exact gateStep_invariant ih h2
  omega

/-- The gate state of a capacity one run with two tasks after one acquire
step. -/
def gateAfterOne : GateState := ⟨0, TaskPhase.running ::ₘ {TaskPhase.pending}⟩

/-- Witness for C7: with capacity one and two gathered tasks, after the
scheduler admits the first task the reachable state has at most one running
task. -/
theorem admission_gate_bounds_running_witness :
    gateAfterOne.tasks.count TaskPhase.running ≤ 1 :=
  admission_gate_bounds_running 1 2 (by decide) gateAfterOne
    (Relation.ReflTransGen.single (GateStep.acquire 0 {TaskPhase.pending}))

theorem countP_eq_one_of_nodup_keys {α κ : Type} [DecidableEq κ] (keyFn : α → κ)
    (l : List α) (hn : (l.map keyFn).Nodup) (p : α) (hp : p ∈ l) :
    l.countP (fun q => decide (keyFn q = keyFn p)) = 1 := by
  induction l with
  | nil => exact absurd hp (List.not_mem_nil p)
  | cons a rest ih =>
    rw [List.map_cons, List.nodup_cons] at hn
    obtain ⟨hna, hnr⟩ := hn
    rcases List.mem_cons.mp hp with rfl | hpr
    · have hz : rest.countP (fun q => decide (keyFn q = keyFn p)) = 0 := by
        rw [List.countP_eq_zero]
        intro q hq hfq
        have he : keyFn q = keyFn p := of_decide_eq_true hfq
        exact hna (he ▸ List.mem_map_of_mem keyFn hq)
      rw [List.countP_cons, hz]
      simp
    · have hane : decide (keyFn a = keyFn p) = false := by
        rw [decide_eq_false_iff_not]
        intro he
        exact hna (he ▸ List.mem_map_of_mem keyFn hpr)
      rw [List.countP_cons, hane]
      simp [ih hnr hpr]

/-- The child transaction of the duplicate-parents counterexample. -/
def tDup : Transaction := {}

/-- A record serialized twice in the duplicate-parents counterexample. -/
def pDup : Property := { url := "u", property_id := "7", transactions := [tDup] }

/-- C8 counterexample: serializing a list holding the same record twice (one
child each) produces a child row whose foreign key columns match two parent
rows, not exactly one, so the claim fails as stated for an arbitrary list of
records. -/
theorem child_fk_not_unique_cex :
    childRows [pDup, pDup] = [toTransRow "7" "u" tDup, toTransRow "7" "u" tDup] ∧
    (parentRows [pDup, pDup]).countP
      (fun r => fkMatches r (toTransRow "7" "u" tDup)) = 2 ∧
    (2 : ℕ) ≠ 1 := by
  refine ⟨rfl, rfl, by decide⟩

/-- C8 amended: serializing N records yields a JSON document recording exactly
the N records with their children inlined; the parent table has N rows
whenever N is positive and the child table has the sum of the children counts
whenever at least one child exists (the sink does not write an empty table,
see the empty-result theorem); and provided the records' identifier and URL
key pairs are pairwise distinct — true of crawl outputs, whose task URLs are
deduplicated — every child row's foreign key columns match exactly one parent
row. -/
theorem serialization_round_trip (now : String) (properties : List Property)
    (hdist : (properties.map fun p => (p.property_id, p.url)).Nodup) :
    (save_to_json now properties).total_properties = properties.length ∧
    (save_to_json now properties).properties = properties ∧
    (properties ≠ [] → (save_to_csv properties).1 = some (parentRows properties) ∧
      (parentRows properties).length = properties.length) ∧
    (childRows properties ≠ [] →
      (save_to_csv properties).2 = some (childRows properties) ∧
      (childRows properties).length =
        (properties.map fun p => p.transactions.length).sum) ∧
    (∀ c ∈ childRows properties,
      (parentRows properties).countP (fun r => fkMatches r c) = 1) := by
  refine ⟨rfl, rfl, ?_, ?_, ?_⟩
  · intro hne
    constructor
    · rw [save_to_csv]
      simp only [parentRows]
      rw [if_neg (by simp [List.map_eq_nil_iff, hne])]
    · rw [parentRows, List.length_map]
  · intro hne
    constructor
    · rw [save_to_csv]
      simp only
      rw [if_neg hne]
    · rw [childRows, List.length_flatMap]
      congr 1
      refine List.map_congr_left ?_
      intro p _
      simp
  · intro c hc
    rw [childRows, List.mem_flatMap] at hc
    obtain ⟨p, hp, hcp⟩ := hc
    rw [List.mem_map] at hcp
    obtain ⟨t, _ht, rfl⟩ := hcp
    rw [parentRows, List.countP_map]
    have hpred : ∀ q : Property,
        ((fun r => fkMatches r (toTransRow p.property_id p.url t)) ∘ toRow) q =
          decide ((fun x : Property => (x.property_id, x.url)) q =
            (fun x : Property => (x.property_id, x.url)) p) := by
      intro q
      by_cases h1 : q.property_id = p.property_id <;>
        by_cases h2 : q.url = p.url <;>
          simp [fkMatches, toRow, toTransRow, h1, h2, Function.comp]
    rw [funext hpred]
    exact countP_eq_one_of_nodup_keys (fun x : Property => (x.property_id, x.url))
      properties hdist p hp

/-- Two key-distinct records with one child each, for the C8 witness. -/
def pA : Property := { url := "a", property_id := "1", transactions := [tDup] }

/-- Second record of the C8 witness. -/
def pB : Property := { url := "b", property_id := "2", transactions := [tDup] }

/-- Witness for the amended C8 claim on two key-distinct records with one
child each: two parent rows, two child rows, and each child row matching
exactly one parent row. -/
theorem serialization_round_trip_witness :
    (save_to_json "t0" [pA, pB]).total_properties = 2 ∧
    (save_to_json "t0" [pA, pB]).properties = [pA, pB] ∧
    (save_to_csv [pA, pB]).1 = some (parentRows [pA, pB]) ∧
    (parentRows [pA, pB]).length = 2 ∧
    (save_to_csv [pA, pB]).2 = some (childRows [pA, pB]) ∧
    (childRows [pA, pB]).length = ([pA, pB].map fun p => p.transactions.length).sum ∧
    (∀ c ∈ childRows [pA, pB],
      (parentRows [pA, pB]).countP (fun r => fkMatches r c) = 1) := by
  obtain ⟨h1, h2, h3, h4, h5⟩ :=
    serialization_round_trip "t0" [pA, pB] (by decide)
  obtain ⟨h3a, h3b⟩ := h3 (by decide)
  obtain ⟨h4a, h4b⟩ := h4 (by decide)
  exact ⟨h1, h2, h3a, h3b, h4a, h4b, h5⟩

/-- C10: the empty-result serialization asymmetry.  On an empty scraped list
save_to_json still writes a document with a zero record count and an empty
record array, while save_to_csv writes neither the parent CSV nor the child
CSV, both writes being guarded on a non-empty row list. -/
theorem empty_result_serialization_asymmetry (now : String) :
    save_to_json now [] = ⟨now, 0, []⟩ ∧
    save_to_csv [] = (none, none) := ⟨rfl, rfl⟩

end StockNotes
